import Mathlib

/-!
Verification of the Dashblock NestJS backend (remote Minecraft-server
orchestration layer) against its natural-language specification.

JavaScript strings are modelled as `List Char`; byte buffers (Node `Buffer`)
as `List Nat` with the convention that genuine buffers carry bytes `< 256`.
Cryptographic primitives (`crypto.createCipheriv` / `createDecipheriv`,
`crypto.scryptSync`, UTF-8 codecs, base64) are abstract parameters; the
structural code around them (hex encoding, token layout, `split(':')`,
key-derivation wiring) is embedded faithfully from the source.
-/

namespace Dashblock

/-- Model of `String.prototype.split(sep)` for a one-character separator.
`"".split(s) = [""]`, separators at the ends produce empty fields. -/
def jsSplit (sep : Char) : List Char → List (List Char)
  | [] => [[]]
  | c :: rest =>
    if c = sep then [] :: jsSplit sep rest
    else
      match jsSplit sep rest with
      | g :: gs => (c :: g) :: gs
      | [] => [[c]]

/-- Lower-case hex digit for a value `0..15` (as produced by
`Buffer.prototype.toString('hex')`). -/
def hexDigitChar : Nat → Char
  | 0 => '0' | 1 => '1' | 2 => '2' | 3 => '3' | 4 => '4'
  | 5 => '5' | 6 => '6' | 7 => '7' | 8 => '8' | 9 => '9'
  | 10 => 'a' | 11 => 'b' | 12 => 'c' | 13 => 'd' | 14 => 'e' | 15 => 'f'
  | _ + 16 => 'x'

/-- Model of `Buffer.prototype.toString('hex')`: two lower-case hex digits
per byte. -/
def toHex : List Nat → List Char
  | [] => []
  | b :: bs => hexDigitChar (b / 16) :: hexDigitChar (b % 16) :: toHex bs

/-- Numeric value of a hex digit character (upper or lower case); `0` on
other characters (callers guard with `isHexDigit`). -/
def hexDigitVal (c : Char) : Nat :=
  if '0' ≤ c ∧ c ≤ '9' then c.toNat - 48
  else if 'a' ≤ c ∧ c ≤ 'f' then c.toNat - 87
  else if 'A' ≤ c ∧ c ≤ 'F' then c.toNat - 55
  else 0

def isHexDigit (c : Char) : Bool :=
  ('0' ≤ c ∧ c ≤ '9') ∨ ('a' ≤ c ∧ c ≤ 'f') ∨ ('A' ≤ c ∧ c ≤ 'F')

/-- Model of `Buffer.from(s, 'hex')`: consumes hex-digit pairs, stopping at
the first non-hex character or unpaired trailing digit, as Node does. -/
def fromHex : List Char → List Nat
  | h :: l :: rest =>
    if isHexDigit h ∧ isHexDigit l then
      (16 * hexDigitVal h + hexDigitVal l) :: fromHex rest
    else []
  | _ => []

theorem hexDigitChar_ne_colon (d : Nat) : hexDigitChar d ≠ ':' := by
  unfold hexDigitChar
  split <;> decide

theorem toHex_ne_colon : ∀ bs : List Nat, ∀ c ∈ toHex bs, c ≠ ':' := by
  intro bs
  induction bs with
  | nil => intro c hc; cases hc
  | cons b bs ih =>
    intro c hc
    simp only [toHex, List.mem_cons] at hc
    rcases hc with h | h | h
    · exact h ▸ hexDigitChar_ne_colon _
    · exact h ▸ hexDigitChar_ne_colon _
    · exact ih c h

theorem jsSplit_of_no_sep (sep : Char) :
    ∀ a : List Char, (∀ c ∈ a, c ≠ sep) → jsSplit sep a = [a] := by
  intro a
  induction a with
  | nil => intro _; rfl
  | cons c rest ih =>
    intro h
    have hc : c ≠ sep := h c (List.mem_cons_self c rest)
    have hrest := ih (fun x hx => h x (List.mem_cons_of_mem c hx))
    simp [jsSplit, hc, hrest]

theorem jsSplit_append_sep (sep : Char) :
    ∀ (a rest : List Char), (∀ c ∈ a, c ≠ sep) →
      jsSplit sep (a ++ sep :: rest) = a :: jsSplit sep rest := by
  intro a
  induction a with
  | nil => intro rest _; simp [jsSplit]
  | cons c a ih =>
    intro rest h
    have hc : c ≠ sep := h c (List.mem_cons_self c a)
    have ha : jsSplit sep (a.append (sep :: rest)) = a :: jsSplit sep rest :=
      ih rest (fun x hx => h x (List.mem_cons_of_mem c hx))
    simp only [List.cons_append, jsSplit, if_neg hc, ha]

theorem hexDigitVal_hexDigitChar : ∀ d < 16, hexDigitVal (hexDigitChar d) = d := by
  decide

theorem isHexDigit_hexDigitChar : ∀ d < 16, isHexDigit (hexDigitChar d) = true := by
  decide

theorem fromHex_toHex : ∀ bs : List Nat, (∀ b ∈ bs, b < 256) →
    fromHex (toHex bs) = bs := by
  intro bs
  induction bs with
  | nil => intro _; rfl
  | cons b bs ih =>
    intro h
    have hb : b < 256 := h b (List.mem_cons_self b bs)
    have hdiv : b / 16 < 16 := Nat.div_lt_of_lt_mul (by omega)
    have hmod : b % 16 < 16 := Nat.mod_lt _ (by omega)
    have hrest := ih (fun x hx => h x (List.mem_cons_of_mem b hx))
    simp only [toHex, fromHex, isHexDigit_hexDigitChar _ hdiv,
      isHexDigit_hexDigitChar _ hmod, and_self, if_pos, hrest,
      hexDigitVal_hexDigitChar _ hdiv, hexDigitVal_hexDigitChar _ hmod]
    rw [Nat.div_add_mod]

/-! ## ServersService.encrypt (src/modules/servers/servers.service.ts, lines 801-812)

The private `encrypt` helper used on the server-creation write path
(`create` stores `rconPassword: this.encrypt(rconPassword)`).  It uses the
padded `ENCRYPTION_KEY` directly as the AES key (no scrypt derivation, no
salt) and returns `iv.toString('hex') + ':' + encrypted`. -/

/-- `ServersService.encrypt`: `hex(iv) ++ ":" ++ hex(ciphertext)`.
`cipherFn key iv plaintextBytes` abstracts `createCipheriv('aes-256-cbc',
key, iv)` followed by `update(text,'utf8','hex') + final('hex')` (the hex
step is explicit here via `toHex`); `utf8Enc` abstracts UTF-8 encoding. -/
def serversServiceEncrypt (cipherFn : List Nat → List Nat → List Nat → List Nat)
    (keyBytes iv : List Nat) (utf8Enc : List Char → List Nat)
    (text : List Char) : List Char :=
  toHex iv ++ ':' :: toHex (cipherFn keyBytes iv (utf8Enc text))

/-- The encrypted console/RCON secret stored by `ServersService.create`
(line 91: `rconPassword: this.encrypt(rconPassword)`). -/
def createStoredRconPassword (cipherFn : List Nat → List Nat → List Nat → List Nat)
    (keyBytes iv : List Nat) (utf8Enc : List Char → List Nat)
    (rconPassword : List Char) : List Char :=
  serversServiceEncrypt cipherFn keyBytes iv utf8Enc rconPassword

/-- C2: the claim states every newly written encrypted secret is in the
three-field `hex(salt):hex(iv):hex(ciphertext)` format and the legacy
two-field form is never produced by a write path.  The code contradicts it:
the console secret stored during server creation always splits into exactly
TWO colon-separated fields (the legacy `iv:ciphertext` layout), for every
cipher, key, IV and password. -/
theorem create_writes_legacy_two_field_secret
    (cipherFn : List Nat → List Nat → List Nat → List Nat)
    (keyBytes iv : List Nat) (utf8Enc : List Char → List Nat)
    (rconPassword : List Char) :
    (jsSplit ':' (createStoredRconPassword cipherFn keyBytes iv utf8Enc
      rconPassword)).length = 2 := by
  unfold createStoredRconPassword serversServiceEncrypt
  rw [jsSplit_append_sep ':' _ _ (toHex_ne_colon iv),
    jsSplit_of_no_sep ':' _ (toHex_ne_colon _)]
  rfl

/-! ## EncryptionService (src/common/services/encryption.service.ts)

The shared Credential Vault.  `encrypt` draws a fresh 16-byte salt and IV,
derives the AES key with `crypto.scryptSync(this.key, salt, 32)` and returns
`hex(salt):hex(iv):hex(ciphertext)`.  `decrypt` splits on `:`; three fields
use the scrypt-derived key, any other field count falls back to the legacy
path that uses `this.key` directly.  The randomness (salt, IV) is passed
explicitly; `scryptFn`, `cipherFn`/`decipherFn` (AES-256-CBC) and the UTF-8
codec are abstract parameters, constrained only where a theorem needs the
library contract (decryption inverts encryption under the same key/IV). -/

inductive EncError where
  | emptyText
  | decryptionFailed
  deriving DecidableEq

/-- The token built by `EncryptionService.encrypt` (line 50 of the service):
`salt.toString('hex') + ':' + iv.toString('hex') + ':' + encrypted`. -/
def encryptionServiceToken (scryptFn : List Nat → List Nat → List Nat)
    (cipherFn : List Nat → List Nat → List Nat → List Nat)
    (keyBytes salt iv : List Nat) (utf8Enc : List Char → List Nat)
    (text : List Char) : List Char :=
  toHex salt ++ ':' ::
    (toHex iv ++ ':' :: toHex (cipherFn (scryptFn keyBytes salt) iv (utf8Enc text)))

/-- `EncryptionService.encrypt`: throws on empty text, otherwise returns the
three-field token. -/
def encryptionServiceEncrypt (scryptFn : List Nat → List Nat → List Nat)
    (cipherFn : List Nat → List Nat → List Nat → List Nat)
    (keyBytes salt iv : List Nat) (utf8Enc : List Char → List Nat)
    (text : List Char) : Except EncError (List Char) :=
  if text = [] then .error .emptyText
  else .ok (encryptionServiceToken scryptFn cipherFn keyBytes salt iv utf8Enc text)

/-- `EncryptionService.decryptLegacy`: `parts.shift()` is the IV in hex, the
remaining parts are re-joined with `:` and deciphered with `this.key`
directly (no scrypt).  Returns none-on-failure mapped to an error. -/
def encryptionServiceDecryptLegacy
    (decipherFn : List Nat → List Nat → List Nat → Option (List Nat))
    (keyBytes : List Nat) (utf8Dec : List Nat → List Char)
    (parts : List (List Char)) : Except EncError (List Char) :=
  let iv := fromHex (parts.headD [])
  let encryptedData := List.intercalate [':'] (parts.drop 1)
  match decipherFn keyBytes iv (fromHex encryptedData) with
  | some pt => .ok (utf8Dec pt)
  | none => .error .decryptionFailed

/-- `EncryptionService.decrypt`: splits on `:`; exactly three fields take the
scrypt path, any other count the legacy path.  Every internal failure is
caught and surfaced as a decryption error. -/
def encryptionServiceDecrypt (scryptFn : List Nat → List Nat → List Nat)
    (decipherFn : List Nat → List Nat → List Nat → Option (List Nat))
    (keyBytes : List Nat) (utf8Dec : List Nat → List Char)
    (encryptedText : List Char) : Except EncError (List Char) :=
  if encryptedText = [] then .error .emptyText
  else
    match jsSplit ':' encryptedText with
    | [saltHex, ivHex, ct] =>
      let salt := fromHex saltHex
      let iv := fromHex ivHex
      let derivedKey := scryptFn keyBytes salt
      match decipherFn derivedKey iv (fromHex ct) with
      | some pt => .ok (utf8Dec pt)
      | none => .error .decryptionFailed
    | parts =>
      match encryptionServiceDecryptLegacy decipherFn keyBytes utf8Dec parts with
      | .ok pt => .ok pt
      | .error _ => .error .decryptionFailed

theorem encryptionServiceToken_split (scryptFn : List Nat → List Nat → List Nat)
    (cipherFn : List Nat → List Nat → List Nat → List Nat)
    (keyBytes salt iv : List Nat) (utf8Enc : List Char → List Nat)
    (text : List Char) :
    jsSplit ':' (encryptionServiceToken scryptFn cipherFn keyBytes salt iv utf8Enc text) =
      [toHex salt, toHex iv,
        toHex (cipherFn (scryptFn keyBytes salt) iv (utf8Enc text))] := by
  unfold encryptionServiceToken
  rw [jsSplit_append_sep ':' _ _ (toHex_ne_colon salt),
    jsSplit_append_sep ':' _ _ (toHex_ne_colon iv),
    jsSplit_of_no_sep ':' _ (toHex_ne_colon _)]

theorem encryptionServiceToken_ne_nil (scryptFn : List Nat → List Nat → List Nat)
    (cipherFn : List Nat → List Nat → List Nat → List Nat)
    (keyBytes salt iv : List Nat) (utf8Enc : List Char → List Nat)
    (text : List Char) :
    encryptionServiceToken scryptFn cipherFn keyBytes salt iv utf8Enc text ≠ [] := by
  unfold encryptionServiceToken
  simp

/-- C1: for every non-empty plaintext, decrypting the vault token produced
by `encrypt` recovers the plaintext, and tokens built from different random
salt/IV draws are distinct.  The hypotheses are the Node `crypto` library
contract instantiated at the values in play: the salt/IV/ciphertext are byte
buffers, AES-256-CBC decryption inverts encryption under the same derived
key and IV, and UTF-8 decoding inverts encoding. -/
theorem encrypt_roundtrip_and_fresh_tokens_differ
    (scryptFn : List Nat → List Nat → List Nat)
    (cipherFn : List Nat → List Nat → List Nat → List Nat)
    (decipherFn : List Nat → List Nat → List Nat → Option (List Nat))
    (utf8Enc : List Char → List Nat) (utf8Dec : List Nat → List Char)
    (keyBytes salt iv : List Nat) (text : List Char)
    (htext : text ≠ [])
    (hsalt : ∀ b ∈ salt, b < 256) (hiv : ∀ b ∈ iv, b < 256)
    (hinv : decipherFn (scryptFn keyBytes salt) iv
      (fromHex (toHex (cipherFn (scryptFn keyBytes salt) iv (utf8Enc text)))) =
      some (utf8Enc text))
    (hutf8 : utf8Dec (utf8Enc text) = text) :
    encryptionServiceEncrypt scryptFn cipherFn keyBytes salt iv utf8Enc text =
      .ok (encryptionServiceToken scryptFn cipherFn keyBytes salt iv utf8Enc text) ∧
    encryptionServiceDecrypt scryptFn decipherFn keyBytes utf8Dec
      (encryptionServiceToken scryptFn cipherFn keyBytes salt iv utf8Enc text) =
      .ok text ∧
    (∀ salt2 iv2 : List Nat, (∀ b ∈ salt2, b < 256) → (∀ b ∈ iv2, b < 256) →
      salt ≠ salt2 ∨ iv ≠ iv2 →
      encryptionServiceToken scryptFn cipherFn keyBytes salt iv utf8Enc text ≠
        encryptionServiceToken scryptFn cipherFn keyBytes salt2 iv2 utf8Enc text) := by
  refine ⟨?_, ?_, ?_⟩
  · unfold encryptionServiceEncrypt
    rw [if_neg htext]
  · unfold encryptionServiceDecrypt
    rw [if_neg (encryptionServiceToken_ne_nil scryptFn cipherFn keyBytes salt iv
      utf8Enc text), encryptionServiceToken_split]
    simp only [fromHex_toHex salt hsalt, fromHex_toHex iv hiv, hinv, hutf8]
  · intro salt2 iv2 hsalt2 hiv2 hne heq
    have hs := congrArg (jsSplit ':') heq
    rw [encryptionServiceToken_split, encryptionServiceToken_split] at hs
    have h1 : toHex salt = toHex salt2 := by injection hs
    have h2 : toHex iv = toHex iv2 := by
      have := (List.cons.injEq _ _ _ _).mp hs
      exact ((List.cons.injEq _ _ _ _).mp this.2).1
    have hss : salt = salt2 := by
      rw [← fromHex_toHex salt hsalt, ← fromHex_toHex salt2 hsalt2, h1]
    have hii : iv = iv2 := by
      rw [← fromHex_toHex iv hiv, ← fromHex_toHex iv2 hiv2, h2]
    rcases hne with h | h
    · exact h hss
    · exact h hii

/-- Concrete instantiation of `encrypt_roundtrip_and_fresh_tokens_differ`
with a toy cipher satisfying the library contract. -/
theorem encrypt_roundtrip_witness :
    (('a' :: 'b' :: []) ≠ ([] : List Char)) ∧
    encryptionServiceDecrypt (fun k _ => k) (fun _ _ c => some c) [7]
      (fun l => l.map Char.ofNat)
      (encryptionServiceToken (fun k _ => k) (fun _ _ m => m) [7] [0, 255] [1]
        (fun s => s.map Char.toNat) ('a' :: 'b' :: [])) =
      .ok ('a' :: 'b' :: []) :=
  ⟨by decide,
    (encrypt_roundtrip_and_fresh_tokens_differ (fun k _ => k) (fun _ _ m => m)
      (fun _ _ c => some c) (fun s => s.map Char.toNat) (fun l => l.map Char.ofNat)
      [7] [0, 255] [1] ('a' :: 'b' :: []) (by decide) (by decide) (by decide)
      (by decide) (by decide)).2.1⟩

/-! ## Node `path.posix` primitives used by FileManagementService

`path.posix.normalize` resolves `.` and `..` segments (popping into `..`
chains only for relative paths), collapses repeated separators, and keeps a
trailing separator; `path.posix.join` concatenates the non-empty arguments
with `/` and normalizes. -/

def isJsSpace (c : Char) : Bool := c = ' ' ∨ c = '\t' ∨ c = '\n' ∨ c = '\r'

/-- Model of `String.prototype.trim()`. -/
def jsTrim (s : List Char) : List Char :=
  ((s.dropWhile isJsSpace).reverse.dropWhile isJsSpace).reverse

/-- Segment resolution of Node's `normalizeString`: drop empty and `.`
segments; `..` pops a real segment, extends a `..` chain, and above the top
is kept only when `allowAboveRoot` (i.e. for relative paths). -/
def normSegs (allowAboveRoot : Bool) : List (List Char) → List (List Char) → List (List Char)
  | [], acc => acc.reverse
  | seg :: rest, acc =>
    if seg = [] ∨ seg = ['.'] then normSegs allowAboveRoot rest acc
    else if seg = ['.', '.'] then
      match acc with
      | [] =>
        if allowAboveRoot then normSegs allowAboveRoot rest [seg]
        else normSegs allowAboveRoot rest []
      | top :: tl =>
        if top = ['.', '.'] then normSegs allowAboveRoot rest (seg :: top :: tl)
        else normSegs allowAboveRoot rest tl
    else normSegs allowAboveRoot rest (seg :: acc)

/-- Model of `path.posix.normalize`. -/
def posixNormalize (p : List Char) : List Char :=
  if p = [] then ['.']
  else
    let isAbs : Bool := p.head? == some '/'
    let trail : Bool := p.getLast? == some '/'
    let segs := normSegs (!isAbs) (jsSplit '/' p) []
    if segs = [] then
      if isAbs then ['/'] else if trail then ['.', '/'] else ['.']
    else
      let body := List.intercalate ['/'] segs
      let body := if trail then body ++ ['/'] else body
      if isAbs then '/' :: body else body

/-- Model of `path.posix.join` with two arguments. -/
def posixJoin2 (a b : List Char) : List Char :=
  if a = [] ∧ b = [] then ['.']
  else if a = [] then posixNormalize b
  else if b = [] then posixNormalize a
  else posixNormalize (a ++ '/' :: b)

/-- Model of `path.posix.extname`: the suffix of the basename from its last
dot, empty when there is no dot, the dot leads the basename, or the
basename is `..`. -/
def posixExtname (p : List Char) : List Char :=
  let base := (jsSplit '/' p).getLastD []
  if base = ['.', '.'] then []
  else
    match base.reverse.findIdx? (· = '.') with
    | none => []
    | some i =>
      let dotIdx := base.length - 1 - i
      if dotIdx = 0 then [] else base.drop dotIdx

/-! ## FileManagementService.readFileContent / writeFileContent
(src/modules/servers/services/file-management.service.ts)

Both operations strip one leading `/` from the requested path, resolve it
with `path.posix.join(serverPath, relativePath)` followed by
`path.posix.normalize`, and reject unless the result is the slash-trimmed
server root or starts with root + `/` — all before any remote command is
built.  Then the extension allow-list is checked and the single remote
command is issued.  The outcome type carries the remote command only in the
accepting branch, so a traversal rejection provably issues no command. -/

/-- `requestedPath.startsWith('/') ? requestedPath.slice(1) : requestedPath` -/
def stripLeadingSlash (s : List Char) : List Char :=
  match s with
  | '/' :: rest => rest
  | other => other

/-- `serverPath.endsWith('/') ? serverPath.slice(0, -1) : serverPath` -/
def trimTrailingSlash (s : List Char) : List Char :=
  if s.getLast? = some '/' then s.dropLast else s

/-- The `fullPath` both operations compute before their security check. -/
def resolveServerRelative (serverPath requestedPath : List Char) : List Char :=
  posixNormalize (posixJoin2 serverPath (stripLeadingSlash requestedPath))

/-- The containment check:
`fullPath.startsWith(normalizedServerPath + '/') || fullPath === normalizedServerPath`
(the source rejects on the negation of this). -/
def insideServerRoot (serverPath fullPath : List Char) : Bool :=
  let normalizedServerPath := trimTrailingSlash serverPath
  (normalizedServerPath ++ ['/']).isPrefixOf fullPath ||
    fullPath == normalizedServerPath

inductive FileOpResult where
  | pathRequired
  | pathTraversal
  | notEditable
  | remoteCommand (cmd : List Char)
  deriving DecidableEq

def readEditableExtensions : List (List Char) :=
  [".properties".data, ".yml".data, ".yaml".data, ".json".data, ".toml".data,
    ".txt".data, ".cfg".data, ".conf".data, ".log".data]

def writeEditableExtensions : List (List Char) :=
  [".properties".data, ".yml".data, ".yaml".data, ".json".data, ".toml".data,
    ".txt".data, ".cfg".data, ".conf".data]

def catCommand (fullPath : List Char) : List Char :=
  "cat \"".data ++ fullPath ++ "\"".data

def writeCommand (fullPath encodedContent : List Char) : List Char :=
  "echo \"".data ++ encodedContent ++ "\" | base64 -d > \"".data ++
    fullPath ++ "\"".data

/-- `FileManagementService.readFileContent` (path handling and command
construction; database lookup and SSH transport abstracted away). -/
def readFileContent (serverPath filePath : List Char) : FileOpResult :=
  if jsTrim filePath = [] then .pathRequired
  else
    let fullPath := resolveServerRelative serverPath filePath
    if !insideServerRoot serverPath fullPath then .pathTraversal
    else
      let fileExt := (posixExtname fullPath).map Char.toLower
      if fileExt ∈ readEditableExtensions then .remoteCommand (catCommand fullPath)
      else .notEditable

/-- `FileManagementService.writeFileContent`; `b64enc` abstracts
`Buffer.from(content).toString('base64')`. -/
def writeFileContent (b64enc : List Char → List Char)
    (serverPath filePath content : List Char) : FileOpResult :=
  if jsTrim filePath = [] then .pathRequired
  else
    let fullPath := resolveServerRelative serverPath filePath
    if !insideServerRoot serverPath fullPath then .pathTraversal
    else
      let fileExt := (posixExtname fullPath).map Char.toLower
      if fileExt ∈ writeEditableExtensions then
        .remoteCommand (writeCommand fullPath (b64enc content))
      else .notEditable

/-- C3: a requested path whose normalized resolution against the server
root escapes the root is rejected with the path-traversal error by both the
read and the write operation, before any remote command is produced; a path
resolving exactly to the root or strictly inside it passes the containment
check (neither operation returns the traversal error on it). -/
theorem read_write_reject_escaping_paths (b64enc : List Char → List Char)
    (serverPath filePath content : List Char)
    (hne : jsTrim filePath ≠ []) :
    (insideServerRoot serverPath (resolveServerRelative serverPath filePath) = false →
      readFileContent serverPath filePath = .pathTraversal ∧
      writeFileContent b64enc serverPath filePath content = .pathTraversal) ∧
    (insideServerRoot serverPath (resolveServerRelative serverPath filePath) = true →
      readFileContent serverPath filePath ≠ .pathTraversal ∧
      writeFileContent b64enc serverPath filePath content ≠ .pathTraversal) := by
  unfold readFileContent writeFileContent
  rw [if_neg hne, if_neg hne]
  constructor
  · intro h
    simp [h]
  · intro h
    refine ⟨?_, ?_⟩ <;>
    · simp only [h, Bool.not_true, Bool.false_eq_true, if_false]
      split <;> simp

/-- Concrete instantiation: `"../../etc"` against root
`/home/x/minecraft/mc-foo-1234` resolves to `/home/x/etc`, escapes the
root, and both operations reject it; `"server.properties"` resolves inside
the root and passes the containment check. -/
theorem read_write_reject_escaping_paths_witness :
    (jsTrim "../../etc".data ≠ [] ∧
      readFileContent "/home/x/minecraft/mc-foo-1234".data "../../etc".data =
        .pathTraversal) ∧
    (jsTrim "server.properties".data ≠ [] ∧
      readFileContent "/home/x/minecraft/mc-foo-1234".data
        "server.properties".data ≠ .pathTraversal) :=
  ⟨⟨by decide,
    ((read_write_reject_escaping_paths (fun c => c)
      "/home/x/minecraft/mc-foo-1234".data "../../etc".data [] (by decide)).1
      (by decide)).1⟩,
  ⟨by decide,
    ((read_write_reject_escaping_paths (fun c => c)
      "/home/x/minecraft/mc-foo-1234".data "server.properties".data [] (by decide)).2
      (by decide)).1⟩⟩

/-! ## Domain model (Prisma schema: `MinecraftServer`, `ServerStatus`,
`PlanType`) -/

inductive ServerStatus where
  | STOPPED
  | STARTING
  | RUNNING
  | STOPPING
  | ERROR
  deriving DecidableEq

inductive PlanType where
  | FREE
  | PRO
  | PREMIUM
  deriving DecidableEq

inductive SvcError where
  | notFound
  | conflict
  | forbidden
  | badRequest
  deriving DecidableEq

/-- The `minecraft_servers` row fields the verified operations touch.
Timestamps are abstract ticks (`Nat`). -/
structure MCServer where
  name : List Char
  internalName : List Char
  description : Option (List Char)
  version : List Char
  gamePort : Nat
  rconPort : Nat
  rconPassword : List Char
  allocatedRamMb : Nat
  maxPlayers : Nat
  serverPath : List Char
  status : ServerStatus
  currentPlayers : Option Nat
  lastStartedAt : Option Nat
  lastStoppedAt : Option Nat
  deriving DecidableEq

/-- A concrete server record used to instantiate theorems. -/
def sampleServer (st : ServerStatus) : MCServer :=
  { name := "srv".data
    internalName := "mc-srv-0a1b2c3d".data
    description := none
    version := "1.20.1".data
    gamePort := 25565
    rconPort := 25665
    rconPassword := "aa:bb".data
    allocatedRamMb := 2048
    maxPlayers := 20
    serverPath := "/home/opc/minecraft/mc-srv-0a1b2c3d".data
    status := st
    currentPlayers := none
    lastStartedAt := none
    lastStoppedAt := none }

/-! ## ServersService.update (servers.service.ts, lines 594-618) and
UpdateServerDto (dto/update-server.dto.ts)

The DTO only carries `name`, `description`, `allocatedRamMb`, `maxPlayers`
(all optional); the Prisma update passes exactly these four fields, so an
absent field (`undefined`) leaves the column unchanged. -/

structure UpdateServerDto where
  name : Option (List Char)
  description : Option (List Char)
  allocatedRamMb : Option Nat
  maxPlayers : Option Nat

/-- `ServersService.update`: the Prisma `update` call with
`data: { name, description, allocatedRamMb, maxPlayers }`. -/
def serversServiceUpdate (s : MCServer) (dto : UpdateServerDto) : MCServer :=
  { s with
    name := dto.name.getD s.name
    description := match dto.description with
      | some d => some d
      | none => s.description
    allocatedRamMb := dto.allocatedRamMb.getD s.allocatedRamMb
    maxPlayers := dto.maxPlayers.getD s.maxPlayers }

/-- C10: `update` touches at most name, description, allocated memory and
max players; ports, internal name, server path, encrypted console secret,
lifecycle status and the start/stop timestamps are unchanged by every
update call. -/
theorem update_frame_condition (s : MCServer) (dto : UpdateServerDto) :
    (serversServiceUpdate s dto).gamePort = s.gamePort ∧
    (serversServiceUpdate s dto).rconPort = s.rconPort ∧
    (serversServiceUpdate s dto).internalName = s.internalName ∧
    (serversServiceUpdate s dto).serverPath = s.serverPath ∧
    (serversServiceUpdate s dto).rconPassword = s.rconPassword ∧
    (serversServiceUpdate s dto).status = s.status ∧
    (serversServiceUpdate s dto).lastStartedAt = s.lastStartedAt ∧
    (serversServiceUpdate s dto).lastStoppedAt = s.lastStoppedAt :=
  ⟨rfl, rfl, rfl, rfl, rfl, rfl, rfl, rfl⟩

/-! ## PlanLimitsService (services/plan-limits.service.ts)

`maxServers = -1` encodes an unlimited server count (PREMIUM); a running
server is one whose status is RUNNING or STARTING. -/

structure PlanLimits where
  maxServers : Int
  maxRunningServers : Int

def PLAN_CONFIGS : PlanType → PlanLimits
  | .FREE => { maxServers := 3, maxRunningServers := 1 }
  | .PRO => { maxServers := 10, maxRunningServers := 3 }
  | .PREMIUM => { maxServers := -1, maxRunningServers := 10 }

structure UserLimits where
  planType : PlanType
  maxServers : Int
  maxRunningServers : Int
  currentServers : Nat
  currentRunningServers : Nat
  canCreateMore : Bool
  canStartMore : Bool

def isRunningOrStarting (st : ServerStatus) : Bool :=
  st == .RUNNING || st == .STARTING

/-- `PlanLimitsService.getUserLimits`, applied to the statuses of the
account's servers. -/
def getUserLimits (planType : PlanType) (serverStatuses : List ServerStatus) :
    UserLimits :=
  let planConfig := PLAN_CONFIGS planType
  let currentServers := serverStatuses.length
  let currentRunningServers := (serverStatuses.filter isRunningOrStarting).length
  { planType := planType
    maxServers := planConfig.maxServers
    maxRunningServers := planConfig.maxRunningServers
    currentServers := currentServers
    currentRunningServers := currentRunningServers
    canCreateMore := planConfig.maxServers == -1 ||
      decide ((currentServers : Int) < planConfig.maxServers)
    canStartMore := decide ((currentRunningServers : Int) <
      planConfig.maxRunningServers) }

/-- `PlanLimitsService.enforceCreateServerLimit`: ForbiddenException when
the account cannot create more servers. -/
def enforceCreateServerLimit (planType : PlanType)
    (serverStatuses : List ServerStatus) : Except SvcError Unit :=
  if !(getUserLimits planType serverStatuses).canCreateMore then
    .error .forbidden
  else .ok ()

/-- `PlanLimitsService.enforceStartServerLimit`. -/
def enforceStartServerLimit (planType : PlanType)
    (serverStatuses : List ServerStatus) : Except SvcError Unit :=
  if !(getUserLimits planType serverStatuses).canStartMore then
    .error .forbidden
  else .ok ()

/-- C6: a FREE account with 3 servers fails creation with the quota error; a
FREE account with one running (or starting) server fails a further start; a
PREMIUM account always passes the server-count check, and its start check
fails exactly when 10 or more of its servers are running. -/
theorem plan_quota_enforcement :
    (∀ sts : List ServerStatus, sts.length = 3 →
      enforceCreateServerLimit .FREE sts = .error .forbidden) ∧
    (∀ sts : List ServerStatus, 1 ≤ (sts.filter isRunningOrStarting).length →
      enforceStartServerLimit .FREE sts = .error .forbidden) ∧
    (∀ sts : List ServerStatus, enforceCreateServerLimit .PREMIUM sts = .ok ()) ∧
    (∀ sts : List ServerStatus,
      (enforceStartServerLimit .PREMIUM sts = .error .forbidden ↔
        10 ≤ (sts.filter isRunningOrStarting).length)) := by
  refine ⟨?_, ?_, ?_, ?_⟩
  · intro sts h
    simp [enforceCreateServerLimit, getUserLimits, PLAN_CONFIGS, h]
  · intro sts h
    have : ¬ (((sts.filter isRunningOrStarting).length : Int) < 1) := by
      omega
    simp [enforceStartServerLimit, getUserLimits, PLAN_CONFIGS, this]
  · intro sts
    simp [enforceCreateServerLimit, getUserLimits, PLAN_CONFIGS]
  · intro sts
    constructor
    · intro h
      by_contra hlt
      have : (((sts.filter isRunningOrStarting).length : Int) < 10) := by omega
      simp [enforceStartServerLimit, getUserLimits, PLAN_CONFIGS, this] at h
    · intro h
      have : ¬ (((sts.filter isRunningOrStarting).length : Int) < 10) := by omega
      simp [enforceStartServerLimit, getUserLimits, PLAN_CONFIGS, this]

/-- Concrete instantiations of `plan_quota_enforcement`. -/
theorem plan_quota_enforcement_witness :
    enforceCreateServerLimit .FREE [.STOPPED, .STOPPED, .STOPPED] =
      .error .forbidden ∧
    enforceStartServerLimit .FREE [.RUNNING, .STOPPED] = .error .forbidden ∧
    enforceCreateServerLimit .PREMIUM [.STOPPED, .STOPPED, .STOPPED] = .ok () :=
  ⟨plan_quota_enforcement.1 _ (by decide),
    plan_quota_enforcement.2.1 _ (by decide),
    plan_quota_enforcement.2.2.1 _⟩

/-! ## PortAllocationService (services/port-allocation.service.ts)

Game ports 25565-25664 and RCON ports 25665-25764; `allocatePorts` scans
each range upward for the first port absent from the respective used set,
throwing ConflictException when a range is exhausted.  The `for` loop of
`findNextAvailablePort` is given fuel `endPort + 1 - startPort`, its exact
iteration count. -/

def GAME_PORT_START : Nat := 25565
def GAME_PORT_END : Nat := 25664
def RCON_PORT_START : Nat := 25665
def RCON_PORT_END : Nat := 25764

def findPortGo (usedPorts : List Nat) : Nat → Nat → Option Nat
  | 0, _ => none
  | fuel + 1, port =>
    if usedPorts.contains port then findPortGo usedPorts fuel (port + 1)
    else some port

/-- `PortAllocationService.findNextAvailablePort`. -/
def findNextAvailablePort (usedPorts : List Nat) (startPort endPort : Nat) :
    Option Nat :=
  findPortGo usedPorts (endPort + 1 - startPort) startPort

structure PortPair where
  gamePort : Nat
  rconPort : Nat
  deriving DecidableEq

/-- `PortAllocationService.allocatePorts`, applied to the port pairs of the
servers on the instance. -/
def allocatePorts (serversOnInstance : List PortPair) : Except SvcError PortPair :=
  match findNextAvailablePort (serversOnInstance.map (fun s => s.gamePort))
      GAME_PORT_START GAME_PORT_END with
  | none => .error .conflict
  | some gamePort =>
    match findNextAvailablePort (serversOnInstance.map (fun s => s.rconPort))
        RCON_PORT_START RCON_PORT_END with
    | none => .error .conflict
    | some rconPort => .ok { gamePort := gamePort, rconPort := rconPort }

theorem findPortGo_some (used : List Nat) :
    ∀ fuel port p, findPortGo used fuel port = some p →
      port ≤ p ∧ p < port + fuel ∧ used.contains p = false ∧
        (∀ q, port ≤ q → q < p → used.contains q = true) := by
  intro fuel
  induction fuel with
  | zero => intro port p h; simp [findPortGo] at h
  | succ fuel ih =>
    intro port p h
    unfold findPortGo at h
    by_cases hc : used.contains port
    · rw [if_pos hc] at h
      obtain ⟨h1, h2, h3, h4⟩ := ih (port + 1) p h
      refine ⟨by omega, by omega, h3, ?_⟩
      intro q hq1 hq2
      rcases Nat.eq_or_lt_of_le hq1 with rfl | hlt
      · exact hc
      · exact h4 q hlt hq2
    · rw [if_neg hc] at h
      injection h with h
      subst h
      exact ⟨Nat.le_refl _, by omega, by simpa using hc,
        fun q hq1 hq2 => absurd hq1 (by omega)⟩

theorem findPortGo_none (used : List Nat) :
    ∀ fuel port, (∀ q, port ≤ q → q < port + fuel → used.contains q = true) →
      findPortGo used fuel port = none := by
  intro fuel
  induction fuel with
  | zero => intro port _; rfl
  | succ fuel ih =>
    intro port h
    unfold findPortGo
    rw [if_pos (h port (Nat.le_refl _) (by omega))]
    exact ih (port + 1) (fun q h1 h2 => h q (by omega) (by omega))

theorem findNextAvailablePort_some (used : List Nat) (s e p : Nat)
    (h : findNextAvailablePort used s e = some p) :
    s ≤ p ∧ p ≤ e ∧ used.contains p = false ∧
      (∀ q, s ≤ q → q < p → used.contains q = true) := by
  obtain ⟨h1, h2, h3, h4⟩ := findPortGo_some used (e + 1 - s) s p h
  exact ⟨h1, by omega, h3, h4⟩

theorem findNextAvailablePort_none (used : List Nat) (s e : Nat)
    (h : ∀ q, s ≤ q → q ≤ e → used.contains q = true) :
    findNextAvailablePort used s e = none :=
  findPortGo_none used (e + 1 - s) s (fun q h1 h2 => h q h1 (by omega))

/-- C7: an allocation returns the lowest free game port of 25565-25664
(judged against game-port usage only) and, independently, the lowest free
console/RCON port of 25665-25764 (judged against RCON-port usage only); a
fully assigned range makes the allocation fail with the capacity error. -/
theorem allocatePorts_lowest_free_ports (serversOnInstance : List PortPair) :
    (∀ g r, allocatePorts serversOnInstance = .ok ⟨g, r⟩ →
      (GAME_PORT_START ≤ g ∧ g ≤ GAME_PORT_END ∧
        (serversOnInstance.map (fun s => s.gamePort)).contains g = false ∧
        (∀ q, GAME_PORT_START ≤ q → q < g →
          (serversOnInstance.map (fun s => s.gamePort)).contains q = true)) ∧
      (RCON_PORT_START ≤ r ∧ r ≤ RCON_PORT_END ∧
        (serversOnInstance.map (fun s => s.rconPort)).contains r = false ∧
        (∀ q, RCON_PORT_START ≤ q → q < r →
          (serversOnInstance.map (fun s => s.rconPort)).contains q = true))) ∧
    ((∀ q, GAME_PORT_START ≤ q → q ≤ GAME_PORT_END →
        (serversOnInstance.map (fun s => s.gamePort)).contains q = true) →
      allocatePorts serversOnInstance = .error .conflict) ∧
    ((∀ q, RCON_PORT_START ≤ q → q ≤ RCON_PORT_END →
        (serversOnInstance.map (fun s => s.rconPort)).contains q = true) →
      allocatePorts serversOnInstance = .error .conflict) := by
  refine ⟨?_, ?_, ?_⟩
  · intro g r h
    unfold allocatePorts at h
    rcases hg : findNextAvailablePort
        (serversOnInstance.map (fun s => s.gamePort)) GAME_PORT_START
        GAME_PORT_END with _ | g'
    · rw [hg] at h; exact absurd h (by simp)
    · rw [hg] at h
      rcases hr : findNextAvailablePort
          (serversOnInstance.map (fun s => s.rconPort)) RCON_PORT_START
          RCON_PORT_END with _ | r'
      · rw [hr] at h; exact absurd h (by simp)
      · rw [hr] at h
        simp only [Except.ok.injEq, PortPair.mk.injEq] at h
        obtain ⟨hg', hr'⟩ := h
        subst hg'; subst hr'
        exact ⟨findNextAvailablePort_some _ _ _ _ hg,
          findNextAvailablePort_some _ _ _ _ hr⟩
  · intro h
    unfold allocatePorts
    rw [findNextAvailablePort_none _ _ _ h]
  · intro h
    unfold allocatePorts
    rcases hg : findNextAvailablePort
        (serversOnInstance.map (fun s => s.gamePort)) GAME_PORT_START
        GAME_PORT_END with _ | g'
    · rw [hg]
    · rw [hg, findNextAvailablePort_none _ _ _ h]

/-- Concrete instantiation: with game ports 25565 and 25566 taken, the next
allocation is game port 25567 and (RCON usage being independent) RCON port
25667. -/
theorem allocatePorts_lowest_free_ports_witness :
    allocatePorts [⟨25565, 25665⟩, ⟨25566, 25666⟩] = .ok ⟨25567, 25667⟩ ∧
    25567 ≤ GAME_PORT_END ∧
    ([(25565 : Nat), 25566].contains 25567 = false) :=
  ⟨by rfl,
    ((allocatePorts_lowest_free_ports [⟨25565, 25665⟩, ⟨25566, 25666⟩]).1
      25567 25667 (by rfl)).1.2.1,
    by decide⟩

/-! ## ServerMonitorService (services/server-monitor.service.ts)

The cron sweep selects every server whose status is not ERROR and
reconciles each against the `systemctl is-active` probe.  The probe output
and the wall clock are explicit inputs; the instance-connected guard, the
SSH transport and the per-server failure isolation (Promise.allSettled)
are outside the reconciliation mapping the claim describes. -/

/-- `ServerMonitorService.checkServerStatus`: the status table and the
conditional `lastStartedAt` / `lastStoppedAt` / `currentPlayers` updates,
with no database write when the status is unchanged. -/
def checkServerStatus (server : MCServer) (probeStdout : List Char) (now : Nat) :
    MCServer :=
  let isRunning := jsTrim probeStdout == "active".data
  let newStatus :=
    if isRunning then ServerStatus.RUNNING
    else if server.status == .STARTING then ServerStatus.STARTING
    else if server.status == .STOPPING then ServerStatus.STOPPED
    else ServerStatus.STOPPED
  if server.status == newStatus then server
  else
    let s1 := { server with status := newStatus }
    let s2 :=
      if newStatus == .RUNNING && server.status == .STOPPED then
        { s1 with lastStartedAt := some now }
      else s1
    if newStatus == .STOPPED && !(server.status == .STOPPED) then
      { s2 with lastStoppedAt := some now, currentPlayers := none }
    else s2

/-- `ServerMonitorService.monitorAllServers`: the sweep touches only
servers whose recorded status is not ERROR. -/
def monitorTick (servers : List MCServer) (probe : MCServer → List Char)
    (now : Nat) : List MCServer :=
  servers.map (fun s =>
    if s.status == .ERROR then s else checkServerStatus s (probe s) now)

/-- C8: for a server not in the error state, one reconciliation maps
(probe, recorded state) exactly as claimed: active+stopped becomes running
with last-start stamped; active+starting becomes running; inactive+stopping
becomes stopped with last-stop stamped and the live player count cleared;
inactive+running becomes stopped with last-stop stamped (and the count
cleared); inactive+starting is left unchanged. -/
theorem reconciliation_tick_mapping (s : MCServer) (out : List Char) (now : Nat) :
    (jsTrim out = "active".data → s.status = .STOPPED →
      checkServerStatus s out now =
        { s with status := .RUNNING, lastStartedAt := some now }) ∧
    (jsTrim out = "active".data → s.status = .STARTING →
      checkServerStatus s out now = { s with status := .RUNNING }) ∧
    (jsTrim out ≠ "active".data → s.status = .STOPPING →
      checkServerStatus s out now =
        { s with status := .STOPPED, lastStoppedAt := some now, currentPlayers := none }) ∧
    (jsTrim out ≠ "active".data → s.status = .RUNNING →
      checkServerStatus s out now =
        { s with status := .STOPPED, lastStoppedAt := some now, currentPlayers := none }) ∧
    (jsTrim out ≠ "active".data → s.status = .STARTING →
      checkServerStatus s out now = s) := by
  refine ⟨?_, ?_, ?_, ?_, ?_⟩ <;> intro hprobe hst
  · have hb : (jsTrim out == "active".data) = true := beq_iff_eq.mpr hprobe
    simp [checkServerStatus, hb, hst]
  · have hb : (jsTrim out == "active".data) = true := beq_iff_eq.mpr hprobe
    simp [checkServerStatus, hb, hst]
  · have hb : (jsTrim out == "active".data) = false :=
      beq_eq_false_iff_ne.mpr hprobe
    simp [checkServerStatus, hb, hst]
  · have hb : (jsTrim out == "active".data) = false :=
      beq_eq_false_iff_ne.mpr hprobe
    simp [checkServerStatus, hb, hst]
  · have hb : (jsTrim out == "active".data) = false :=
      beq_eq_false_iff_ne.mpr hprobe
    simp [checkServerStatus, hb, hst]

/-- Concrete instantiations of all five reconciliation cases. -/
theorem reconciliation_tick_mapping_witness :
    checkServerStatus (sampleServer .STOPPED) "active".data 5 =
      { sampleServer .STOPPED with status := .RUNNING, lastStartedAt := some 5 } ∧
    checkServerStatus (sampleServer .STARTING) "active".data 5 =
      { sampleServer .STARTING with status := .RUNNING } ∧
    checkServerStatus (sampleServer .STOPPING) "inactive".data 5 =
      { sampleServer .STOPPING with status := .STOPPED, lastStoppedAt := some 5, currentPlayers := none } ∧
    checkServerStatus (sampleServer .RUNNING) "inactive".data 5 =
      { sampleServer .RUNNING with status := .STOPPED, lastStoppedAt := some 5, currentPlayers := none } ∧
    checkServerStatus (sampleServer .STARTING) "inactive".data 5 =
      sampleServer .STARTING :=
  ⟨(reconciliation_tick_mapping (sampleServer .STOPPED) "active".data 5).1
      (by decide) rfl,
    (reconciliation_tick_mapping (sampleServer .STARTING) "active".data 5).2.1
      (by decide) rfl,
    (reconciliation_tick_mapping (sampleServer .STOPPING) "inactive".data 5).2.2.1
      (by decide) rfl,
    (reconciliation_tick_mapping (sampleServer .RUNNING) "inactive".data 5).2.2.2.1
      (by decide) rfl,
    (reconciliation_tick_mapping (sampleServer .STARTING) "inactive".data 5).2.2.2.2
      (by decide) rfl⟩

/-! ## SshService command execution outcomes (src/ssh/ssh.service.ts)

`executeCommand` resolves with stdout/stderr (both trimmed) and the exit
code — note it resolves even on a non-zero exit code — or rejects
(connection failure, 30s command timeout).  A rejection is an
`Except.error`; a resolution is `Except.ok` carrying the `CommandResult`. -/

inductive SshError where
  | connectionFailed
  | commandTimeout
  deriving DecidableEq

structure CommandResult where
  stdout : List Char
  stderr : List Char
  exitCode : Int
  deriving DecidableEq

/-! ## ServersService.start / stop and their asynchronous remote phases
(servers.service.ts, lines 295-500)

The synchronous half checks the quota (start only) and the current status,
flips to STARTING/STOPPING and returns.  The asynchronous half is modelled
as a function of the remote call outcomes, returning the ordered event
trace (remote command issued, 5-second sleep, final status committed) and
the resulting record. -/

inductive RemoteEv where
  | execCmd (cmd : List Char)
  | sleepMs (ms : Nat)
  | commitStatus (st : ServerStatus)
  deriving DecidableEq

def isExecEv : RemoteEv → Bool
  | .execCmd _ => true
  | _ => false

def startCmd (s : MCServer) : List Char :=
  "sudo systemctl start ".data ++ s.internalName ++ ".service".data

def stopCmd (s : MCServer) : List Char :=
  "sudo systemctl stop ".data ++ s.internalName ++ ".service".data

def isActiveCmd (s : MCServer) : List Char :=
  "sudo systemctl is-active ".data ++ s.internalName ++
    ".service || echo \"inactive\"".data

/-- Synchronous half of `ServersService.start`: quota check, NotFound,
already-running / already-starting conflicts, then the STARTING flip. -/
def serversServiceStart (canStartMore : Bool) (server : Option MCServer) :
    Except SvcError MCServer :=
  if !canStartMore then .error .forbidden
  else
    match server with
    | none => .error .notFound
    | some s =>
      if s.status == .RUNNING then .error .conflict
      else if s.status == .STARTING then .error .conflict
      else .ok { s with status := .STARTING }

/-- `ServersService.startServerOnRemote`: issue `systemctl start`, sleep
5000ms, re-probe `is-active`, then commit RUNNING (stamping the start time)
or STOPPED; any thrown remote error commits ERROR. -/
def startServerOnRemote (s : MCServer)
    (startRes probeRes : Except SshError CommandResult) (now : Nat) :
    List RemoteEv × MCServer :=
  match startRes with
  | .error _ =>
    ([.execCmd (startCmd s), .commitStatus .ERROR], { s with status := .ERROR })
  | .ok _ =>
    match probeRes with
    | .error _ =>
      ([.execCmd (startCmd s), .sleepMs 5000, .execCmd (isActiveCmd s),
        .commitStatus .ERROR], { s with status := .ERROR })
    | .ok r =>
      let isRunning := jsTrim r.stdout == "active".data
      let final := if isRunning then ServerStatus.RUNNING else ServerStatus.STOPPED
      ([.execCmd (startCmd s), .sleepMs 5000, .execCmd (isActiveCmd s),
        .commitStatus final],
        { s with status := final, lastStartedAt := if isRunning then some now else s.lastStartedAt })

/-- Synchronous half of `ServersService.stop`. -/
def serversServiceStop (server : Option MCServer) : Except SvcError MCServer :=
  match server with
  | none => .error .notFound
  | some s =>
    if s.status == .STOPPED then .error .conflict
    else if s.status == .STOPPING then .error .conflict
    else .ok { s with status := .STOPPING }

/-- `ServersService.stopServerOnRemote`: issue `systemctl stop` and commit
STOPPED immediately (stamping the stop time and clearing the player count)
— no grace period and no status re-probe; a thrown error commits ERROR. -/
def stopServerOnRemote (s : MCServer) (stopRes : Except SshError CommandResult)
    (now : Nat) : List RemoteEv × MCServer :=
  match stopRes with
  | .error _ =>
    ([.execCmd (stopCmd s), .commitStatus .ERROR], { s with status := .ERROR })
  | .ok _ =>
    ([.execCmd (stopCmd s), .commitStatus .STOPPED],
      { s with status := .STOPPED, lastStoppedAt := some now, currentPlayers := none })

/-- C5 counterexample: the claim asserts that the asynchronous phase of an
accepted STOP waits a grace period and re-probes active/inactive before
committing.  On a concrete accepted stop whose remote command succeeds, the
trace is exactly `[systemctl stop, commit STOPPED]`: it contains no sleep
event and exactly one remote command — no grace period, no re-probe. -/
theorem stop_async_skips_grace_and_probe :
    (stopServerOnRemote (sampleServer .STOPPING) (.ok ⟨[], [], 0⟩) 7).1 =
      [.execCmd (stopCmd (sampleServer .STOPPING)), .commitStatus .STOPPED] ∧
    (∀ n, RemoteEv.sleepMs n ∉
      (stopServerOnRemote (sampleServer .STOPPING) (.ok ⟨[], [], 0⟩) 7).1) ∧
    ((stopServerOnRemote (sampleServer .STOPPING) (.ok ⟨[], [], 0⟩) 7).1.filter
      isExecEv).length = 1 := by
  refine ⟨rfl, ?_, rfl⟩
  intro n
  simp [stopServerOnRemote]

/-- C5 amended: start requests are two-phase exactly as claimed (flip to
STARTING, return; async command, 5000ms grace sleep, re-probe, then commit
RUNNING with the start time stamped, STOPPED on an inactive probe, ERROR on
a thrown remote error).  Stop requests flip to STOPPING and return, but the
asynchronous phase issues only the supervisor stop command and immediately
commits STOPPED (stamping the stop time, clearing the player count) with no
grace period and no re-probe; ERROR only when the command throws. -/
theorem start_stop_two_phase_actual (s : MCServer) (now : Nat) :
    (s.status ≠ .RUNNING → s.status ≠ .STARTING →
      serversServiceStart true (some s) = .ok { s with status := .STARTING }) ∧
    (∀ r p : CommandResult, jsTrim p.stdout = "active".data →
      startServerOnRemote s (.ok r) (.ok p) now =
        ([.execCmd (startCmd s), .sleepMs 5000, .execCmd (isActiveCmd s),
          .commitStatus .RUNNING],
          { s with status := .RUNNING, lastStartedAt := some now })) ∧
    (∀ r p : CommandResult, jsTrim p.stdout ≠ "active".data →
      startServerOnRemote s (.ok r) (.ok p) now =
        ([.execCmd (startCmd s), .sleepMs 5000, .execCmd (isActiveCmd s),
          .commitStatus .STOPPED], { s with status := .STOPPED })) ∧
    (∀ e probeRes, startServerOnRemote s (.error e) probeRes now =
      ([.execCmd (startCmd s), .commitStatus .ERROR], { s with status := .ERROR })) ∧
    (∀ r e, startServerOnRemote s (.ok r) (.error e) now =
      ([.execCmd (startCmd s), .sleepMs 5000, .execCmd (isActiveCmd s),
        .commitStatus .ERROR], { s with status := .ERROR })) ∧
    (s.status ≠ .STOPPED → s.status ≠ .STOPPING →
      serversServiceStop (some s) = .ok { s with status := .STOPPING }) ∧
    (∀ r : CommandResult, stopServerOnRemote s (.ok r) now =
      ([.execCmd (stopCmd s), .commitStatus .STOPPED],
        { s with status := .STOPPED, lastStoppedAt := some now, currentPlayers := none })) ∧
    (∀ e, stopServerOnRemote s (.error e) now =
      ([.execCmd (stopCmd s), .commitStatus .ERROR],
        { s with status := .ERROR })) := by
  refine ⟨?_, ?_, ?_, fun e probeRes => rfl, fun r e => rfl, ?_, fun r => rfl,
    fun e => rfl⟩
  · intro h1 h2
    have hb1 : (s.status == ServerStatus.RUNNING) = false :=
      beq_eq_false_iff_ne.mpr h1
    have hb2 : (s.status == ServerStatus.STARTING) = false :=
      beq_eq_false_iff_ne.mpr h2
    simp [serversServiceStart, hb1, hb2]
  · intro r p hp
    have hb : (jsTrim p.stdout == "active".data) = true := beq_iff_eq.mpr hp
    simp [startServerOnRemote, hb]
  · intro r p hp
    have hb : (jsTrim p.stdout == "active".data) = false :=
      beq_eq_false_iff_ne.mpr hp
    simp [startServerOnRemote, hb]
  · intro h1 h2
    have hb1 : (s.status == ServerStatus.STOPPED) = false :=
      beq_eq_false_iff_ne.mpr h1
    have hb2 : (s.status == ServerStatus.STOPPING) = false :=
      beq_eq_false_iff_ne.mpr h2
    simp [serversServiceStop, hb1, hb2]

/-- Concrete instantiations of `start_stop_two_phase_actual`. -/
theorem start_stop_two_phase_actual_witness :
    serversServiceStart true (some (sampleServer .STOPPED)) =
      .ok { sampleServer .STOPPED with status := .STARTING } ∧
    startServerOnRemote (sampleServer .STARTING) (.ok ⟨[], [], 0⟩)
        (.ok ⟨"active".data, [], 0⟩) 9 =
      ([.execCmd (startCmd (sampleServer .STARTING)), .sleepMs 5000,
        .execCmd (isActiveCmd (sampleServer .STARTING)), .commitStatus .RUNNING],
        { sampleServer .STARTING with status := .RUNNING, lastStartedAt := some 9 }) ∧
    serversServiceStop (some (sampleServer .RUNNING)) =
      .ok { sampleServer .RUNNING with status := .STOPPING } :=
  ⟨(start_stop_two_phase_actual (sampleServer .STOPPED) 9).1 (by decide)
      (by decide),
    (start_stop_two_phase_actual (sampleServer .STARTING) 9).2.1 ⟨[], [], 0⟩
      ⟨"active".data, [], 0⟩ (by decide),
    (start_stop_two_phase_actual (sampleServer .RUNNING) 9).2.2.2.2.2.1
      (by decide) (by decide)⟩

/-! ## ServersService.remove / deleteServerOnRemote (servers.service.ts,
lines 505-589)

`remove` rejects RUNNING servers, then calls
`this.deleteServerOnRemote(id).catch(...)` WITHOUT awaiting it (the source
comment reads `async, don't wait`) and immediately issues the database
delete.  `deleteServerOnRemote` re-fetches the record by id before doing
anything remote; if the database delete has already committed, the fetch
finds nothing and the cleanup performs no remote command at all.  The trace
lists events in issue order: the unawaited cleanup reaches only its first
suspension (the re-fetch) before the database delete is issued, so every
remote cleanup command and the cleanup's terminal outcome (success log or
failure log) come after the delete. -/

inductive DelEv where
  | cleanupFetchIssued
  | dbDeleteIssued
  | execCmd (cmd : List Char)
  | cleanupDone
  | cleanupFailureLogged
  deriving DecidableEq

def disableCmd (s : MCServer) : List Char :=
  "sudo systemctl disable ".data ++ s.internalName ++ ".service || true".data

def rmUnitCmd (s : MCServer) : List Char :=
  "sudo rm -f /etc/systemd/system/".data ++ s.internalName ++ ".service".data

def daemonReloadCmd : List Char := "sudo systemctl daemon-reload".data

def rmDirCmd (s : MCServer) : List Char := "rm -rf ".data ++ s.serverPath

def cleanupCmds (s : MCServer) : List (List Char) :=
  [disableCmd s, rmUnitCmd s, daemonReloadCmd, rmDirCmd s]

/-- `ServersService.deleteServerOnRemote`: nothing at all when the
re-fetched record is gone; otherwise the four remote commands in order,
ending in a success log, or cut short at a failing command with the failure
logged (`failAt` abstracts which command, if any, throws). -/
def deleteServerOnRemote (found : Option MCServer) (failAt : Option Nat) :
    List DelEv :=
  match found with
  | none => []
  | some s =>
    match failAt with
    | none => (cleanupCmds s).map DelEv.execCmd ++ [.cleanupDone]
    | some k => ((cleanupCmds s).take k).map DelEv.execCmd ++
        [.cleanupFailureLogged]

/-- `ServersService.remove`: NotFound, the RUNNING conflict guard, then the
unawaited cleanup launch followed immediately by the database delete.
`fetchSeesRecord` abstracts the race between the cleanup's re-fetch and the
database delete. -/
def serversServiceRemove (server : Option MCServer) (fetchSeesRecord : Bool)
    (failAt : Option Nat) : Except SvcError (List DelEv) :=
  match server with
  | none => .error .notFound
  | some s =>
    if s.status == .RUNNING then .error .conflict
    else .ok (DelEv.cleanupFetchIssued :: DelEv.dbDeleteIssued ::
      deleteServerOnRemote (if fetchSeesRecord then some s else none) failAt)

/-- C4: the claim requires the remote cleanup to run to completion (or log
its failure) before the database record is removed.  In the code the
database delete is issued second, right after the cleanup task's first
suspension, so it precedes every remote cleanup command and the cleanup's
terminal outcome; and when the delete wins the race against the cleanup's
re-fetch, no remote cleanup happens at all (orphaned remote state).  The
not-running deletion guard itself does hold. -/
theorem remove_issues_db_delete_before_cleanup_outcome (s : MCServer)
    (h : s.status ≠ .RUNNING) (fetchSeesRecord : Bool) (failAt : Option Nat) :
    (∃ rest, serversServiceRemove (some s) fetchSeesRecord failAt =
        .ok (DelEv.cleanupFetchIssued :: DelEv.dbDeleteIssued :: rest) ∧
      (fetchSeesRecord = false → rest = [])) ∧
    serversServiceRemove (some { s with status := .RUNNING }) fetchSeesRecord
      failAt = .error .conflict := by
  have hb : (s.status == ServerStatus.RUNNING) = false :=
    beq_eq_false_iff_ne.mpr h
  constructor
  · refine ⟨deleteServerOnRemote (if fetchSeesRecord then some s else none)
      failAt, ?_, ?_⟩
    · simp [serversServiceRemove, hb]
    · intro hf
      subst hf
      simp [deleteServerOnRemote]
  · simp [serversServiceRemove]

/-- Concrete instantiation: deleting a stopped server whose cleanup
re-fetch loses the race leaves a trace with the database delete issued and
no remote cleanup command at all. -/
theorem remove_issues_db_delete_before_cleanup_outcome_witness :
    (sampleServer .STOPPED).status ≠ .RUNNING ∧
    serversServiceRemove (some (sampleServer .STOPPED)) false none =
      .ok [DelEv.cleanupFetchIssued, DelEv.dbDeleteIssued] :=
  ⟨by decide, by
    obtain ⟨rest, heq, hnil⟩ :=
      (remove_issues_db_delete_before_cleanup_outcome (sampleServer .STOPPED)
        (by decide) false none).1
    rw [hnil rfl] at heq
    exact heq⟩

/-! ## SshService.getSystemInfo (src/ssh/ssh.service.ts, lines 132-186)

Four sequential `executeCommand` sub-probes (RAM, CPU cores, disk, OS
label).  A rejection of any sub-probe propagates and fails the whole probe
— but a sub-probe that merely exits non-zero still resolves, and its
unparseable stdout is defaulted with `parseInt(...) || 0` (or
`stdout || 'Unknown'`), so such a failure does NOT fail the probe. -/

/-- Digit value under a parseInt radix. -/
def digitVal? (radix : Nat) (c : Char) : Option Nat :=
  if isHexDigit c ∧ hexDigitVal c < radix then some (hexDigitVal c) else none

def parseDigitRun (radix : Nat) (acc : Nat) : List Char → Nat
  | [] => acc
  | c :: rest =>
    match digitVal? radix c with
    | some v => parseDigitRun radix (acc * radix + v) rest
    | none => acc

/-- Model of JavaScript `parseInt(s)` (radix auto-detection: a `0x`/`0X`
lead selects 16, else 10; leading whitespace and sign accepted; parsing
stops at the first non-digit; `none` models NaN). -/
def jsParseInt (s : List Char) : Option Int :=
  let s1 := s.dropWhile isJsSpace
  let signed : Int × List Char :=
    match s1 with
    | '-' :: r => (-1, r)
    | '+' :: r => (1, r)
    | _ => (1, s1)
  let based : Nat × List Char :=
    match signed.2 with
    | '0' :: 'x' :: r => (16, r)
    | '0' :: 'X' :: r => (16, r)
    | _ => (10, signed.2)
  match based.2 with
  | [] => none
  | c :: rest =>
    match digitVal? based.1 c with
    | some v => some (signed.1 * (parseDigitRun based.1 v rest : Nat))
    | none => none

/-- `parseInt(stdout) || 0`. -/
def parseIntOr0 (s : List Char) : Int :=
  match jsParseInt s with
  | some v => v
  | none => 0

structure SystemInfo where
  totalRamMb : Int
  totalCpuCores : Int
  diskSpaceGb : Int
  osType : List Char
  deriving DecidableEq

/-- `SshService.getSystemInfo` as a function of the four sub-probe
outcomes, in their sequential order (a rejection short-circuits the rest,
which are then never issued). -/
def getSystemInfo (ramR cpuR diskR osR : Except SshError CommandResult) :
    Except SshError SystemInfo := do
  let ram ← ramR
  let cpu ← cpuR
  let disk ← diskR
  let os ← osR
  return { totalRamMb := parseIntOr0 ram.stdout
           totalCpuCores := parseIntOr0 cpu.stdout
           diskSpaceGb := parseIntOr0 disk.stdout
           osType := if os.stdout = [] then "Unknown".data else os.stdout }

/-- A failed sub-probe shell invocation: the remote call rejected, or it
resolved with a non-zero exit code. -/
def subProbeFailed (r : Except SshError CommandResult) : Prop :=
  (∃ e, r = .error e) ∨ (∃ c, r = .ok c ∧ c.exitCode ≠ 0)

/-- C9 counterexample: the claim says any failing sub-probe shell
invocation fails the whole probe, and partial system information is never
reported as success.  Concretely, a CPU sub-probe that exits 127 (command
not found) with empty stdout still lets the probe succeed, reporting 0 CPU
cores alongside the other values. -/
theorem getSystemInfo_partial_success_counterexample :
    subProbeFailed (Except.ok (⟨[], "nproc: command not found".data, 127⟩ :
      CommandResult)) ∧
    getSystemInfo (.ok ⟨"1024".data, [], 0⟩)
      (.ok ⟨[], "nproc: command not found".data, 127⟩)
      (.ok ⟨"50".data, [], 0⟩) (.ok ⟨"Ubuntu 22.04".data, [], 0⟩) =
      .ok ⟨1024, 0, 50, "Ubuntu 22.04".data⟩ :=
  ⟨Or.inr ⟨_, rfl, by decide⟩, by rfl⟩

/-- C9 amended: the probe is all-or-nothing only with respect to THROWN
sub-probe errors — the first rejection, in sub-probe order, fails the whole
probe and later sub-probes never run; when all four resolve (regardless of
exit codes) the probe succeeds, with unparseable numeric outputs defaulted
to 0 and an empty OS string to `Unknown`. -/
theorem getSystemInfo_all_or_nothing_for_thrown_errors :
    (∀ e cpuR diskR osR, getSystemInfo (.error e) cpuR diskR osR = .error e) ∧
    (∀ ram e diskR osR,
      getSystemInfo (.ok ram) (.error e) diskR osR = .error e) ∧
    (∀ ram cpu e osR,
      getSystemInfo (.ok ram) (.ok cpu) (.error e) osR = .error e) ∧
    (∀ ram cpu disk e,
      getSystemInfo (.ok ram) (.ok cpu) (.ok disk) (.error e) = .error e) ∧
    (∀ ram cpu disk os, getSystemInfo (.ok ram) (.ok cpu) (.ok disk) (.ok os) =
      .ok ⟨parseIntOr0 ram.stdout, parseIntOr0 cpu.stdout,
        parseIntOr0 disk.stdout,
        if os.stdout = [] then "Unknown".data else os.stdout⟩) :=
  ⟨fun _ _ _ _ => rfl, fun _ _ _ _ => rfl, fun _ _ _ _ => rfl,
    fun _ _ _ _ => rfl, fun _ _ _ _ => rfl⟩

end Dashblock
